import Mathlib

/-!
Verification development for the listening-history analytics pipeline of the
spotify-wrapped-streamlit repository.

The definitions below are shallow embeddings of the Python source:
* `pages/upload.py` — ingestion (`process_files`) and deterministic synthetic
  audio-feature generation (`add_audio_features`), including a faithful model
  of numpy's legacy `RandomState` (MT19937) generator that the source seeds
  per track via `np.random.seed`.
* `pages/wrapped.py` — aggregation (`create_listening_clock`,
  `analyze_listening_patterns`) and classification (`analyze_music_profile`).

Machine integers are modelled as `Nat` with explicit reduction modulo `2 ^ 32`
where the C implementation works on 32-bit words.  The real-valued draws and
statistics are modelled over `ℚ`; numpy's `rk_double` produces a dyadic
rational `(a * 2^26 + b) / 2^53`, which `ℚ` represents exactly.  A float
division whose denominator is zero produces a non-finite value (NaN/inf) in
the source; such results are modelled as `none : Option ℚ`.
-/

namespace SpotifyWrapped

/-- Truncation to a 32-bit word, the `& 0xffffffffUL` of the C sources. -/
def mask32 (x : Nat) : Nat := x % 4294967296

/-- MT19937 tempering transform applied by `rk_random` to each extracted word
(`y ^= y >> 11; y ^= (y << 7) & 0x9d2c5680; y ^= (y << 15) & 0xefc60000;
y ^= y >> 18`). -/
def temper (y : Nat) : Nat :=
  let y1 := y ^^^ (y >>> 11)
  let y2 := y1 ^^^ ((y1 <<< 7) &&& 0x9d2c5680)
  let y3 := y2 ^^^ ((y2 <<< 15) &&& 0xefc60000)
  y3 ^^^ (y3 >>> 18)

/-- The MT19937 key initialisation loop of numpy's `rk_seed`: starting from the
seed, `key[i] = x_i` where `x_{i+1} = (1812433253 * (x_i ^ (x_i >> 30)) + i + 1)
mod 2^32`.  `mtInitFrom x i n` produces the `n` words starting at position `i`
with current value `x`. -/
def mtInitFrom (x : Nat) (i : Nat) : Nat → List Nat
  | 0 => []
  | n + 1 => x :: mtInitFrom (mask32 (1812433253 * (x ^^^ (x >>> 30)) + (i + 1))) (i + 1) n

/-- The 624-word MT19937 key produced by `np.random.seed(seed)`. -/
def mtInit (seed : Nat) : List Nat := mtInitFrom (mask32 seed) 0 624

/-- One step of the in-place MT19937 generation loop of `rk_random`:
`y = (mt[i] & 0x80000000) | (mt[(i+1) % 624] & 0x7fffffff);
mt[i] = mt[(i+397) % 624] ^ (y >> 1) ^ (y & 1 ? 0x9908b0df : 0)`.
The array is updated in place, so reads at indices below `i` see the freshly
written values, which threading the list through the fold reproduces. -/
def twistStep (mt : List Nat) (i : Nat) : List Nat :=
  let y := (mt.getD i 0 &&& 0x80000000) ||| (mt.getD ((i + 1) % 624) 0 &&& 0x7fffffff)
  let v := mt.getD ((i + 397) % 624) 0 ^^^ (y >>> 1) ^^^ (if y &&& 1 = 1 then 0x9908b0df else 0)
  mt.set i v

/-- The full MT19937 state array after one twist pass (`i = 0, …, 623`). -/
def mtTwist (mt : List Nat) : List Nat := (List.range 624).foldl twistStep mt

/-- The state of numpy's global legacy generator: the 624-word key and the
read position (`state->pos`). -/
structure MTState where
  key : List Nat
  pos : Nat
deriving DecidableEq

/-- `np.random.seed seed`: fresh key, position at the end so that the first
extraction triggers a twist (numpy sets `pos = RK_STATE_LEN`). -/
def npSeed (seed : Nat) : MTState := ⟨mtInit seed, 624⟩

/-- numpy's `rk_random`: twist when the key is exhausted, then read and temper
the next 32-bit word. -/
def rk_random (s : MTState) : Nat × MTState :=
  if 624 ≤ s.pos then
    let k := mtTwist s.key
    (temper (mask32 (k.getD 0 0)), ⟨k, 1⟩)
  else
    (temper (mask32 (s.key.getD s.pos 0)), ⟨s.key, s.pos + 1⟩)

/-- numpy's `rk_double`: a 53-bit uniform dyadic rational in `[0, 1)`,
`((a >> 5) * 67108864 + (b >> 6)) / 9007199254740992` from two raw draws. -/
def rk_double (s : MTState) : ℚ × MTState :=
  let a := rk_random s
  let b := rk_random a.2
  (((a.1 >>> 5) * 67108864 + (b.1 >>> 6) : Nat) / (9007199254740992 : ℚ), b.2)

/-- `np.random.uniform(lo, hi)`: `lo + (hi - lo) * rk_double`. -/
def rk_uniform (lo hi : ℚ) (s : MTState) : ℚ × MTState :=
  (lo + (hi - lo) * (rk_double s).1, (rk_double s).2)

/-- The value of the `n`-th (0-based) `rk_double` drawn from state `s`. -/
def nthDouble (s : MTState) : Nat → ℚ
  | 0 => (rk_double s).1
  | n + 1 => nthDouble (rk_double s).2 n

/-- UTF-8 encoding of a unicode code point, the per-character behaviour of
Python's `str.encode()`. -/
def utf8Bytes (c : Nat) : List Nat :=
  if c < 128 then [c]
  else if c < 2048 then [192 ||| (c >>> 6), 128 ||| (c &&& 63)]
  else if c < 65536 then
    [224 ||| (c >>> 12), 128 ||| ((c >>> 6) &&& 63), 128 ||| (c &&& 63)]
  else
    [240 ||| (c >>> 18), 128 ||| ((c >>> 12) &&& 63),
     128 ||| ((c >>> 6) &&& 63), 128 ||| (c &&& 63)]

/-- `uri.encode()`: the UTF-8 byte sequence of a string. -/
def strBytes (s : String) : List Nat :=
  s.data.foldr (fun c acc => utf8Bytes c.toNat ++ acc) []

/-- `int.from_bytes(uri.encode(), 'big') % (2**32)`: big-endian integer of the
encoded string, reduced modulo `2^32`. -/
def trackSeed (uri : String) : Nat :=
  ((strBytes uri).foldl (fun a b => a * 256 + b) 0) % 4294967296

/-- One synthesized per-track feature record (`feature = {...}` in
`add_audio_features`), including the `tempo` column. -/
structure Feature where
  uri : String
  danceability : ℚ
  energy : ℚ
  valence : ℚ
  tempo : ℚ
  speechiness : ℚ
  acousticness : ℚ
  instrumentalness : ℚ
deriving DecidableEq

/-- The seven uniform draws of `add_audio_features` for one track, in source
order (danceability, energy, valence, tempo, speechiness, acousticness,
instrumentalness), threaded through the global generator state. -/
def genFeature (uri : String) (s0 : MTState) : Feature × MTState :=
  let r1 := rk_uniform 0.2 0.9 s0
  let r2 := rk_uniform 0.1 1.0 r1.2
  let r3 := rk_uniform 0.1 0.9 r2.2
  let r4 := rk_uniform 70 180 r3.2
  let r5 := rk_uniform 0.02 0.2 r4.2
  let r6 := rk_uniform 0.0 1.0 r5.2
  let r7 := rk_uniform 0.0 0.8 r6.2
  (⟨uri, r1.1, r2.1, r3.1, r4.1, r5.1, r6.1, r7.1⟩, r7.2)

/-- The feature vector of one track id:
`np.random.seed(int.from_bytes(uri.encode(), 'big') % 2**32)` followed by the
seven uniform draws. -/
def synthFeature (uri : String) : Feature :=
  (genFeature uri (npSeed (trackSeed uri))).1

/-- The per-track loop of `add_audio_features` over a list of (possibly null)
track ids, starting from an arbitrary global generator state `g`.  A null id
or an empty-string id fails the `if uri and isinstance(uri, str)` test and is
skipped; a valid id reseeds the global generator from the id and draws its
seven features. -/
def featureLoop (g : MTState) : List (Option String) → List Feature × MTState
  | [] => ([], g)
  | none :: rest => featureLoop g rest
  | some u :: rest =>
    if u = "" then featureLoop g rest
    else
      let r := genFeature u (npSeed (trackSeed u))
      let rest' := featureLoop r.2 rest
      (r.1 :: rest'.1, rest'.2)

/-- The ids of a batch that pass the `if uri and isinstance(uri, str)` test:
present and non-empty. -/
def validIds (ids : List (Option String)) : List String :=
  ids.filterMap fun o =>
    match o with
    | none => none
    | some u => if u = "" then none else some u

/-- The integer numerator of one `rk_double` draw (the `Nat`-valued part of the
dyadic rational), used to reason about concrete draws without rational
arithmetic. -/
def doubleNum (s : MTState) : Nat :=
  ((rk_random s).1 >>> 5) * 67108864 + ((rk_random (rk_random s).2).1 >>> 6)

/-- The generator state after one `rk_double` draw. -/
def nextDoubleState (s : MTState) : MTState := (rk_random (rk_random s).2).2

/-- The six draws of the reimplementation described by the claim: same seed
derivation and same ranges and order for the six documented dimensions, but
without the interleaved fourth (`tempo`) draw.  Modelled from the claim's
hypothetical reimplementation, to be compared with `synthFeature`. -/
structure SixFeature where
  danceability : ℚ
  energy : ℚ
  valence : ℚ
  speechiness : ℚ
  acousticness : ℚ
  instrumentalness : ℚ
deriving DecidableEq

/-- Feature synthesis without the interleaved `tempo` draw (the claim's
six-draw reimplementation). -/
def sixDrawFeature (uri : String) : SixFeature :=
  let s0 := npSeed (trackSeed uri)
  let r1 := rk_uniform 0.2 0.9 s0
  let r2 := rk_uniform 0.1 1.0 r1.2
  let r3 := rk_uniform 0.1 0.9 r2.2
  let r5 := rk_uniform 0.02 0.2 r3.2
  let r6 := rk_uniform 0.0 1.0 r5.2
  let r7 := rk_uniform 0.0 0.8 r6.2
  ⟨r1.1, r2.1, r3.1, r5.1, r6.1, r7.1⟩

/-! ## Ingestion (`process_files` in `pages/upload.py`) -/

/-- A parsed timestamp (`pd.to_datetime` result).  The hour is a value in
`0, …, 23`, as `Series.dt.hour` guarantees. -/
structure Ts where
  year : Nat
  month : Nat
  day : Nat
  hour : Fin 24
  minute : Nat
  second : Nat
deriving DecidableEq

/-- A raw play-event record of an uploaded JSON file: the `ts` string, the
`ms_played` number and the (possibly absent) `spotify_track_uri`. -/
structure RawRecord where
  ts : String
  ms_played : ℚ
  uri : Option String
deriving DecidableEq

/-- One uploaded source: its file name and its parsed content — `none` models
a file whose bytes are not syntactically valid JSON (`json.JSONDecodeError`). -/
structure Source where
  name : String
  payload : Option (List RawRecord)
deriving DecidableEq

/-- Ingestion failures: `malformedSource` is the `st.error` + `return None`
path for an unreadable file (it names the file); `emptyData` is the
`"No valid data found"` path; `badTimestamp` is the unhandled exception raised
by `pd.to_datetime` on an unparseable timestamp string (it carries the
offending value, not a file name). -/
inductive IngestErr where
  | malformedSource (name : String)
  | emptyData
  | badTimestamp (value : String)
deriving DecidableEq

/-- Decimal digit of a character, if any. -/
def charDigit (c : Char) : Option Nat :=
  if c.isDigit then some (c.toNat - 48) else none

/-- Timestamp parsing (`pd.to_datetime` on one value), modelled for the ISO
format `YYYY-MM-DDTHH:MM:SSZ` of Spotify streaming-history exports; any other
string is unparseable and raises. -/
def parseTs (s : String) : Option Ts :=
  match s.data with
  | [y1, y2, y3, y4, c1, m1, m2, c2, d1, d2, c3, h1, h2, c4, mi1, mi2, c5, s1, s2, c6] =>
    if c1 = '-' ∧ c2 = '-' ∧ c3 = 'T' ∧ c4 = ':' ∧ c5 = ':' ∧ c6 = 'Z' then do
      let y4' ← charDigit y4
      let y3' ← charDigit y3
      let y2' ← charDigit y2
      let y1' ← charDigit y1
      let mo ← do
        let a ← charDigit m1
        let b ← charDigit m2
        pure (a * 10 + b)
      let d ← do
        let a ← charDigit d1
        let b ← charDigit d2
        pure (a * 10 + b)
      let h ← do
        let a ← charDigit h1
        let b ← charDigit h2
        pure (a * 10 + b)
      let mi ← do
        let a ← charDigit mi1
        let b ← charDigit mi2
        pure (a * 10 + b)
      let sec ← do
        let a ← charDigit s1
        let b ← charDigit s2
        pure (a * 10 + b)
      if hh : 1 ≤ mo ∧ mo ≤ 12 ∧ 1 ≤ d ∧ d ≤ 31 ∧ h < 24 ∧ mi < 60 ∧ sec < 60 then
        some ⟨y1' * 1000 + y2' * 100 + y3' * 10 + y4', mo, d,
              ⟨h, hh.2.2.2.2.1⟩, mi, sec⟩
      else none
    else none
  | _ => none

/-- One row of the canonical table after `process_files`: parsed timestamp,
derived `minutes_played = ms_played / 60000`, and the track uri column. -/
structure Event where
  ts : Ts
  minutes : ℚ
  uri : Option String
deriving DecidableEq

/-- The file loop of `process_files`: concatenate the parsed contents in input
order; on the first unreadable file, report an error naming it and stop (the
`return None` path). -/
def collectFiles : List Source → Except IngestErr (List RawRecord)
  | [] => .ok []
  | s :: rest =>
    match s.payload with
    | none => .error (.malformedSource s.name)
    | some recs => (collectFiles rest).map (fun acc => recs ++ acc)

/-- The column conversions of `process_files`
(`df['ts'] = pd.to_datetime(df['ts'])`, `df['minutes_played'] = ms/60000`):
the first unparseable timestamp raises, aborting the whole conversion with no
row-level skip. -/
def rowsToEvents : List RawRecord → Except IngestErr (List Event)
  | [] => .ok []
  | r :: rest =>
    match parseTs r.ts with
    | none => .error (.badTimestamp r.ts)
    | some t => (rowsToEvents rest).map (fun acc => ⟨t, r.ms_played / 60000, r.uri⟩ :: acc)

/-- `process_files`: collect all sources (all-or-nothing), reject an empty
concatenation, then parse timestamps and compute minutes. -/
def processFiles (srcs : List Source) : Except IngestErr (List Event) :=
  match collectFiles srcs with
  | .error e => .error e
  | .ok recs => if recs.isEmpty then .error .emptyData else rowsToEvents recs

/-! ## Aggregation (`pages/wrapped.py`) -/

/-- Total minutes of the events whose timestamp falls in hour `h`. -/
def sumAt (tbl : List Event) (h : Nat) : ℚ :=
  ((tbl.filter fun e => decide (e.ts.hour.val = h)).map Event.minutes).sum

/-- The hours of day that occur in the table, in increasing order — the index
of the `df.groupby('hour')['minutes_played'].sum()` Series. -/
def presentHours (tbl : List Event) : List Nat :=
  (List.range 24).filter fun h => tbl.any fun e => decide (e.ts.hour.val = h)

/-- `df.groupby('hour')['minutes_played'].sum()`: one `(hour, minutes)` pair
per hour that occurs, sorted by hour. -/
def hourlyStats (tbl : List Event) : List (Nat × ℚ) :=
  (presentHours tbl).map fun h => (h, sumAt tbl h)

/-- `.sum()` of the values of a `(hour, minutes)` Series. -/
def pairSum (l : List (Nat × ℚ)) : ℚ := (l.map Prod.snd).sum

/-- `series[a:b].sum()` — positional slicing, as pandas applies to a Series
with an integer index. -/
def sliceSum (l : List (Nat × ℚ)) (a b : Nat) : ℚ := pairSum ((l.drop a).take (b - a))

/-- `series[a:].sum()`. -/
def tailSum (l : List (Nat × ℚ)) (a : Nat) : ℚ := pairSum (l.drop a)

/-- `series[:b].sum()`. -/
def headSum (l : List (Nat × ℚ)) (b : Nat) : ℚ := pairSum (l.take b)

/-- Total minutes, `hourly_stats.sum()`. -/
def totalOf (tbl : List Event) : ℚ := pairSum (hourlyStats tbl)

/-- The four time-block percentages of `analyze_listening_patterns`.  A value
is `none` when the float division `block_minutes / total_minutes` has a zero
denominator and therefore yields a non-finite value (NaN/inf) in the source. -/
structure BlockPerc where
  earlyMorning : Option ℚ
  workHours : Option ℚ
  evening : Option ℚ
  lateNight : Option ℚ
deriving DecidableEq

/-- The per-block minutes of `analyze_listening_patterns`:
`hourly_stats[start:end].sum()` when `start < end`, otherwise the wrap-around
`hourly_stats[start:].sum() + hourly_stats[:end].sum()`. -/
def blockMinutes (stats : List (Nat × ℚ)) (a b : Nat) : ℚ :=
  if a < b then sliceSum stats a b else tailSum stats a + headSum stats b

/-- The `block_percentages` dict computed by `analyze_listening_patterns` for
the blocks `early_morning (5,8)`, `work_hours (9,17)`, `evening (17,22)`,
`late_night (22,5)`. -/
def analyzeBlockPercentages (tbl : List Event) : BlockPerc :=
  let stats := hourlyStats tbl
  let total := pairSum stats
  let pct := fun (a b : Nat) =>
    if total = 0 then none else some (blockMinutes stats a b / total * 100)
  ⟨pct 5 8, pct 9 17, pct 17 22, pct 22 5⟩

/-- Sum of the four block percentages (a `none` entry contributes nothing). -/
def sumBlocks (p : BlockPerc) : ℚ :=
  p.earlyMorning.getD 0 + p.workHours.getD 0 + p.evening.getD 0 + p.lateNight.getD 0

/-- The 24-bucket hourly profile of `create_listening_clock`: the left merge
of the `all_hours` frame (hours `0, …, 23`) with the groupby Series, with
missing hours filled with `0`. -/
def hourlyProfile24 (tbl : List Event) : List (Nat × ℚ) :=
  (List.range 24).map fun h =>
    (h, match (hourlyStats tbl).find? (fun p => decide (p.1 = h)) with
        | some p => p.2
        | none => 0)

/-! ## Feature enrichment and the music profile (`add_audio_features`,
`analyze_music_profile`) -/

/-- `df['spotify_track_uri'].unique()`: the distinct values in first-occurrence
order. -/
def firstDedup : List (Option String) → List (Option String)
  | [] => []
  | x :: xs => x :: firstDedup (xs.filter fun y => decide (y ≠ x))
  termination_by l => l.length
  decreasing_by
    simp only [List.length_cons]
    exact Nat.lt_succ_of_le (List.length_filter_le _ _)

/-- The enriched table produced by `add_audio_features`: the per-track features
generated from the unique uris (starting from global generator state `g`),
left-merged back onto every row by uri.  A row whose uri is absent or was
skipped gets `none` (empty feature columns). -/
def enrichTbl (g : MTState) (tbl : List Event) : List (Event × Option Feature) :=
  let feats := (featureLoop g (firstDedup (tbl.map Event.uri))).1
  tbl.map fun e => (e, e.uri.bind fun u => feats.find? fun f => decide (f.uri = u))

/-- The feature values present in a column of the enriched table (rows with
empty feature columns hold NaN and are excluded, as `Series.mean` excludes
them). -/
def featVals (etbl : List (Event × Option Feature)) (proj : Feature → ℚ) : List ℚ :=
  etbl.filterMap fun p => p.2.map proj

/-- `df[col].mean()` over the enriched table: sum of the present values over
their count. -/
def featMean (etbl : List (Event × Option Feature)) (proj : Feature → ℚ) : ℚ :=
  (featVals etbl proj).sum / (featVals etbl proj).length

/-- A row that carries feature values after the merge: its uri is present and
non-empty. -/
def validRow (e : Event) : Bool :=
  match e.uri with
  | none => false
  | some u => decide (u ≠ "")

/-- The averaged feature dimensions computed at the top of
`analyze_music_profile`. -/
structure AvgFeatures where
  danceability : ℚ
  energy : ℚ
  valence : ℚ
  speechiness : ℚ
  acousticness : ℚ
  instrumentalness : ℚ
deriving DecidableEq

/-- The six column means fed to the personality rules. -/
def avgFeaturesOf (etbl : List (Event × Option Feature)) : AvgFeatures :=
  ⟨featMean etbl Feature.danceability, featMean etbl Feature.energy,
   featMean etbl Feature.valence, featMean etbl Feature.speechiness,
   featMean etbl Feature.acousticness, featMean etbl Feature.instrumentalness⟩

/-- The personality decision chain of `analyze_music_profile`, translated
condition for condition. -/
def classifyProfile (f : AvgFeatures) : String :=
  if f.energy > 0.7 ∧ f.danceability > 0.6 then "Party Starter 🎉"
  else if f.acousticness > 0.6 ∧ f.instrumentalness > 0.4 then "Soul Searcher 🎸"
  else if f.valence > 0.6 ∧ f.energy > 0.5 then "Mood Lifter ⚡"
  else if f.speechiness > 0.4 then "Lyric Lover 🎤"
  else "Eclectic Explorer 🌟"

/-- The ordered rule list described by the spec: guard and label, evaluated
top to bottom. -/
def profileRules : List ((AvgFeatures → Bool) × String) :=
  [(fun f => decide (f.energy > 0.7 ∧ f.danceability > 0.6), "Party Starter 🎉"),
   (fun f => decide (f.acousticness > 0.6 ∧ f.instrumentalness > 0.4), "Soul Searcher 🎸"),
   (fun f => decide (f.valence > 0.6 ∧ f.energy > 0.5), "Mood Lifter ⚡"),
   (fun f => decide (f.speechiness > 0.4), "Lyric Lover 🎤")]

/-- First-matching-rule evaluation with a guaranteed fallback label. -/
def firstMatch (rules : List ((AvgFeatures → Bool) × String)) (fallback : String)
    (f : AvgFeatures) : String :=
  match rules.find? (fun r => r.1 f) with
  | some r => r.2
  | none => fallback

/-! ## Concrete inputs used by counterexamples and witnesses -/

/-- A record whose timestamp string `pd.to_datetime` cannot parse. -/
def c6BadRecord : RawRecord := ⟨"not-a-timestamp", 60000, none⟩

/-- A syntactically valid source containing one good record and one record
with an unparseable timestamp. -/
def c6BadSource : Source :=
  ⟨"StreamingHistory.json",
   some [⟨"2023-01-02T03:04:05Z", 60000, some "spotify:track:demo"⟩, c6BadRecord]⟩

/-- The concatenated records of `[c6BadSource]`. -/
def c6Recs : List RawRecord :=
  [⟨"2023-01-02T03:04:05Z", 60000, some "spotify:track:demo"⟩, c6BadRecord]

/-- Sources for the C5 witness: a readable file followed by an unreadable
one. -/
def c5Sources : List Source :=
  [⟨"history_2023.json", some [⟨"2023-01-02T03:04:05Z", 60000, none⟩]⟩,
   ⟨"broken.json", none⟩]

/-- A canonical table whose only event played for zero milliseconds, so the
total minutes are exactly zero. -/
def zeroTable : List Event :=
  [⟨⟨2023, 1, 1, ⟨3, by norm_num⟩, 0, 0⟩, 0, none⟩]

/-- A canonical table with a single one-minute event at hour 8. -/
def hour8Table : List Event :=
  [⟨⟨2023, 1, 1, ⟨8, by norm_num⟩, 0, 0⟩, 1, none⟩]

/-- A canonical table with one event in every hour of the day, where the
hour-8 event played for zero minutes and every other hour for one minute. -/
def hour8FreeTable : List Event :=
  [⟨⟨2023, 1, 1, ⟨0, by norm_num⟩, 0, 0⟩, 1, none⟩,
   ⟨⟨2023, 1, 1, ⟨1, by norm_num⟩, 0, 0⟩, 1, none⟩,
   ⟨⟨2023, 1, 1, ⟨2, by norm_num⟩, 0, 0⟩, 1, none⟩,
   ⟨⟨2023, 1, 1, ⟨3, by norm_num⟩, 0, 0⟩, 1, none⟩,
   ⟨⟨2023, 1, 1, ⟨4, by norm_num⟩, 0, 0⟩, 1, none⟩,
   ⟨⟨2023, 1, 1, ⟨5, by norm_num⟩, 0, 0⟩, 1, none⟩,
   ⟨⟨2023, 1, 1, ⟨6, by norm_num⟩, 0, 0⟩, 1, none⟩,
   ⟨⟨2023, 1, 1, ⟨7, by norm_num⟩, 0, 0⟩, 1, none⟩,
   ⟨⟨2023, 1, 1, ⟨8, by norm_num⟩, 0, 0⟩, 0, none⟩,
   ⟨⟨2023, 1, 1, ⟨9, by norm_num⟩, 0, 0⟩, 1, none⟩,
   ⟨⟨2023, 1, 1, ⟨10, by norm_num⟩, 0, 0⟩, 1, none⟩,
   ⟨⟨2023, 1, 1, ⟨11, by norm_num⟩, 0, 0⟩, 1, none⟩,
   ⟨⟨2023, 1, 1, ⟨12, by norm_num⟩, 0, 0⟩, 1, none⟩,
   ⟨⟨2023, 1, 1, ⟨13, by norm_num⟩, 0, 0⟩, 1, none⟩,
   ⟨⟨2023, 1, 1, ⟨14, by norm_num⟩, 0, 0⟩, 1, none⟩,
   ⟨⟨2023, 1, 1, ⟨15, by norm_num⟩, 0, 0⟩, 1, none⟩,
   ⟨⟨2023, 1, 1, ⟨16, by norm_num⟩, 0, 0⟩, 1, none⟩,
   ⟨⟨2023, 1, 1, ⟨17, by norm_num⟩, 0, 0⟩, 1, none⟩,
   ⟨⟨2023, 1, 1, ⟨18, by norm_num⟩, 0, 0⟩, 1, none⟩,
   ⟨⟨2023, 1, 1, ⟨19, by norm_num⟩, 0, 0⟩, 1, none⟩,
   ⟨⟨2023, 1, 1, ⟨20, by norm_num⟩, 0, 0⟩, 1, none⟩,
   ⟨⟨2023, 1, 1, ⟨21, by norm_num⟩, 0, 0⟩, 1, none⟩,
   ⟨⟨2023, 1, 1, ⟨22, by norm_num⟩, 0, 0⟩, 1, none⟩,
   ⟨⟨2023, 1, 1, ⟨23, by norm_num⟩, 0, 0⟩, 1, none⟩]

/-- A concrete track id used to exhibit draw-sequence differences. -/
def demoUri : String := "spotify:track:demo"

/-! ## Helper lemmas -/

theorem featureLoop_fst (g : MTState) (ids : List (Option String)) :
    (featureLoop g ids).1 = (validIds ids).map synthFeature := by
  induction ids generalizing g with
  | nil => rfl
  | cons o rest ih =>
    cases o with
    | none => simpa [featureLoop, validIds, List.filterMap_cons] using ih g
    | some u =>
      by_cases hu : u = ""
      · subst hu
        simpa [featureLoop, validIds, List.filterMap_cons] using ih g
      · simp [featureLoop, validIds, List.filterMap_cons, hu, synthFeature,
              ih ((genFeature u (npSeed (trackSeed u))).2)]

theorem validIds_ne_empty {ids : List (Option String)} {v : String}
    (hv : v ∈ validIds ids) : v ≠ "" := by
  simp only [validIds, List.mem_filterMap] at hv
  obtain ⟨o, -, ho⟩ := hv
  match o with
  | none => simp at ho
  | some u =>
    by_cases hu : u = "" <;> simp [hu] at ho
    exact ho ▸ hu

theorem uri_synthFeature (u : String) : (synthFeature u).uri = u := rfl

theorem temper_lt {y : Nat} (h : y < 2 ^ 32) : temper y < 2 ^ 32 := by
  have hshr : ∀ a k : Nat, a < 2 ^ 32 → a >>> k < 2 ^ 32 := fun a k ha =>
    lt_of_le_of_lt (Nat.shiftRight_eq_div_pow a k ▸ Nat.div_le_self _ _) ha
  have hand : ∀ a m : Nat, m < 2 ^ 32 → a &&& m < 2 ^ 32 := fun a m hm =>
    lt_of_le_of_lt Nat.and_le_right hm
  unfold temper
  have h1 : y ^^^ (y >>> 11) < 2 ^ 32 := Nat.xor_lt_two_pow h (hshr y 11 h)
  have h2 : (y ^^^ (y >>> 11)) ^^^ (((y ^^^ (y >>> 11)) <<< 7) &&& 0x9d2c5680) < 2 ^ 32 :=
    Nat.xor_lt_two_pow h1 (hand _ _ (by norm_num))
  have h3 : ((y ^^^ (y >>> 11)) ^^^ (((y ^^^ (y >>> 11)) <<< 7) &&& 0x9d2c5680)) ^^^
      ((((y ^^^ (y >>> 11)) ^^^ (((y ^^^ (y >>> 11)) <<< 7) &&& 0x9d2c5680)) <<< 15) &&&
        0xefc60000) < 2 ^ 32 :=
    Nat.xor_lt_two_pow h2 (hand _ _ (by norm_num))
  exact Nat.xor_lt_two_pow h3 (hshr _ 18 h3)

theorem rk_random_lt (s : MTState) : (rk_random s).1 < 2 ^ 32 := by
  have hm : ∀ x : Nat, mask32 x < 2 ^ 32 := fun x => by
    have : (4294967296 : Nat) = 2 ^ 32 := by norm_num
    exact this ▸ Nat.mod_lt _ (by norm_num)
  unfold rk_random
  split <;> exact temper_lt (hm _)

theorem rk_double_nonneg (s : MTState) : 0 ≤ (rk_double s).1 := by
  unfold rk_double
  positivity

theorem rk_double_lt_one (s : MTState) : (rk_double s).1 < 1 := by
  have ha : (rk_random s).1 >>> 5 < 134217728 := by
    have := rk_random_lt s
    rw [Nat.shiftRight_eq_div_pow]
    omega
  have hb : (rk_random (rk_random s).2).1 >>> 6 < 67108864 := by
    have := rk_random_lt (rk_random s).2
    rw [Nat.shiftRight_eq_div_pow]
    omega
  unfold rk_double
  rw [div_lt_one (by norm_num)]
  have hn : ((rk_random s).1 >>> 5) * 67108864 + ((rk_random (rk_random s).2).1 >>> 6)
      < 9007199254740992 := by omega
  exact_mod_cast hn

theorem rk_uniform_bounds (lo hi : ℚ) (s : MTState) (h : lo ≤ hi) :
    lo ≤ (rk_uniform lo hi s).1 ∧ (rk_uniform lo hi s).1 ≤ hi := by
  have h0 := rk_double_nonneg s
  have h1 := (rk_double_lt_one s).le
  have hd : 0 ≤ hi - lo := sub_nonneg.mpr h
  constructor
  · exact le_add_of_nonneg_right (mul_nonneg hd h0)
  · have : (hi - lo) * (rk_double s).1 ≤ (hi - lo) * 1 :=
      mul_le_mul_of_nonneg_left h1 hd
    simpa [rk_uniform] using by linarith [this]

theorem genFeature_bounds (u : String) (s0 : MTState) :
    (0.2 ≤ (genFeature u s0).1.danceability ∧ (genFeature u s0).1.danceability ≤ 0.9) ∧
    (0.1 ≤ (genFeature u s0).1.energy ∧ (genFeature u s0).1.energy ≤ 1.0) ∧
    (0.1 ≤ (genFeature u s0).1.valence ∧ (genFeature u s0).1.valence ≤ 0.9) ∧
    (0.02 ≤ (genFeature u s0).1.speechiness ∧ (genFeature u s0).1.speechiness ≤ 0.2) ∧
    (0.0 ≤ (genFeature u s0).1.acousticness ∧ (genFeature u s0).1.acousticness ≤ 1.0) ∧
    (0.0 ≤ (genFeature u s0).1.instrumentalness ∧ (genFeature u s0).1.instrumentalness ≤ 0.8) := by
  unfold genFeature
  dsimp only
  exact ⟨rk_uniform_bounds _ _ _ (by norm_num), rk_uniform_bounds _ _ _ (by norm_num),
         rk_uniform_bounds _ _ _ (by norm_num), rk_uniform_bounds _ _ _ (by norm_num),
         rk_uniform_bounds _ _ _ (by norm_num), rk_uniform_bounds _ _ _ (by norm_num)⟩

/-! ## Claims -/

/-- Claim C1.  Feature synthesis is a pure function of the track identifier:
the per-track loop of `add_audio_features`, run from any incoming global
generator state `g` and over any batch of ids in any order, produces for each
valid id exactly `synthFeature` of that id (the features obtained by seeding
from the id's big-endian-mod-`2^32` seed), so synthesizing the same id twice
— in the same run, across runs, alone or inside any batch — yields
bit-identical dimension values.  The second conjunct makes the independence
from the prior generator state explicit. -/
theorem claim_C1 (g₁ g₂ : MTState) (ids : List (Option String)) :
    (featureLoop g₁ ids).1 = (validIds ids).map synthFeature ∧
    (featureLoop g₁ ids).1 = (featureLoop g₂ ids).1 := by
  refine ⟨featureLoop_fst g₁ ids, ?_⟩
  rw [featureLoop_fst g₁ ids, featureLoop_fst g₂ ids]

/-- Claim C2.  Every synthesized dimension of a non-empty track id lies within
its documented closed range (danceability in `[0.2, 0.9]`, energy in
`[0.1, 1.0]`, valence in `[0.1, 0.9]`, speechiness in `[0.02, 0.2]`,
acousticness in `[0.0, 1.0]`, instrumentalness in `[0.0, 0.8]`); the final
conjunct shows an empty-string id is rejected: no feature vector in any batch
output carries the empty uri. -/
theorem claim_C2 (u : String) (_hu : u ≠ "") :
    (0.2 ≤ (synthFeature u).danceability ∧ (synthFeature u).danceability ≤ 0.9) ∧
    (0.1 ≤ (synthFeature u).energy ∧ (synthFeature u).energy ≤ 1.0) ∧
    (0.1 ≤ (synthFeature u).valence ∧ (synthFeature u).valence ≤ 0.9) ∧
    (0.02 ≤ (synthFeature u).speechiness ∧ (synthFeature u).speechiness ≤ 0.2) ∧
    (0.0 ≤ (synthFeature u).acousticness ∧ (synthFeature u).acousticness ≤ 1.0) ∧
    (0.0 ≤ (synthFeature u).instrumentalness ∧ (synthFeature u).instrumentalness ≤ 0.8) ∧
    (∀ (g : MTState) (ids : List (Option String)) (f : Feature),
      f ∈ (featureLoop g ids).1 → f.uri ≠ "") := by
  have hb := genFeature_bounds u (npSeed (trackSeed u))
  refine ⟨hb.1, hb.2.1, hb.2.2.1, hb.2.2.2.1, hb.2.2.2.2.1, hb.2.2.2.2.2, ?_⟩
  intro g ids f hf
  rw [featureLoop_fst] at hf
  obtain ⟨v, hv, rfl⟩ := List.mem_map.mp hf
  rw [uri_synthFeature]
  exact validIds_ne_empty hv

/-- Witness for C2 at the concrete id `"a"`. -/
theorem claim_C2_witness :
    ("a" : String) ≠ "" ∧
    ((0.2 ≤ (synthFeature "a").danceability ∧ (synthFeature "a").danceability ≤ 0.9) ∧
     (0.1 ≤ (synthFeature "a").energy ∧ (synthFeature "a").energy ≤ 1.0) ∧
     (0.1 ≤ (synthFeature "a").valence ∧ (synthFeature "a").valence ≤ 0.9) ∧
     (0.02 ≤ (synthFeature "a").speechiness ∧ (synthFeature "a").speechiness ≤ 0.2) ∧
     (0.0 ≤ (synthFeature "a").acousticness ∧ (synthFeature "a").acousticness ≤ 1.0) ∧
     (0.0 ≤ (synthFeature "a").instrumentalness ∧ (synthFeature "a").instrumentalness ≤ 0.8) ∧
     (∀ (g : MTState) (ids : List (Option String)) (f : Feature),
       f ∈ (featureLoop g ids).1 → f.uri ≠ "")) :=
  ⟨by decide, claim_C2 "a" (by decide)⟩

/-- Claim C4.  The profile classifier equals first-match evaluation of the
ordered rule list (energy/danceability, then acousticness/instrumentalness,
then valence/energy, then speechiness) with the fallback label, and it is
total: it always returns one of the five labels. -/
theorem claim_C4 (f : AvgFeatures) :
    classifyProfile f = firstMatch profileRules "Eclectic Explorer 🌟" f ∧
    classifyProfile f ∈ ["Party Starter 🎉", "Soul Searcher 🎸", "Mood Lifter ⚡",
                         "Lyric Lover 🎤", "Eclectic Explorer 🌟"] := by
  constructor
  · unfold classifyProfile firstMatch profileRules
    by_cases h1 : f.energy > 0.7 ∧ f.danceability > 0.6 <;>
      by_cases h2 : f.acousticness > 0.6 ∧ f.instrumentalness > 0.4 <;>
        by_cases h3 : f.valence > 0.6 ∧ f.energy > 0.5 <;>
          by_cases h4 : f.speechiness > 0.4 <;>
            simp [List.find?, h1, h2, h3, h4]
  · unfold classifyProfile
    split_ifs <;> simp

/-- Claim C5.  All-or-nothing ingestion over unreadable sources: if any source
fails to parse, `process_files` reports an error naming the first such source
and returns no table at all — earlier, valid sources do not leak into any
output. -/
theorem claim_C5 (srcs : List Source) (s : Source)
    (hfind : srcs.find? (fun x => x.payload.isNone) = some s) :
    processFiles srcs = .error (.malformedSource s.name) ∧
    s.payload = none ∧
    ∀ tbl, processFiles srcs ≠ .ok tbl := by
  have hcollect : collectFiles srcs = .error (.malformedSource s.name) := by
    induction srcs with
    | nil => simp at hfind
    | cons hd tl ih =>
      match hp : hd.payload with
      | none =>
        rw [List.find?_cons_of_pos _ (by simp [hp])] at hfind
        obtain rfl := Option.some.inj hfind
        simp [collectFiles, hp]
      | some recs =>
        rw [List.find?_cons_of_neg _ (by simp [hp])] at hfind
        simp [collectFiles, hp, ih hfind, Except.map]
  refine ⟨?_, ?_, ?_⟩
  · simp [processFiles, hcollect]
  · simpa using List.find?_some hfind
  · intro tbl
    simp [processFiles, hcollect]

/-- Witness for C5: two sources, the second unreadable. -/
theorem claim_C5_witness :
    c5Sources.find? (fun x => x.payload.isNone) = some ⟨"broken.json", none⟩ ∧
    processFiles c5Sources = .error (.malformedSource "broken.json") :=
  ⟨by rfl, (claim_C5 c5Sources ⟨"broken.json", none⟩ (by rfl)).1⟩

theorem rowsToEvents_find_err (recs : List RawRecord) (r : RawRecord)
    (hfind : recs.find? (fun x => (parseTs x.ts).isNone) = some r) :
    rowsToEvents recs = .error (.badTimestamp r.ts) := by
  induction recs with
  | nil => simp at hfind
  | cons hd tl ih =>
    match hp : parseTs hd.ts with
    | none =>
      rw [List.find?_cons_of_pos _ (by simp [hp])] at hfind
      obtain rfl := Option.some.inj hfind
      simp [rowsToEvents, hp]
    | some t =>
      rw [List.find?_cons_of_neg _ (by simp [hp])] at hfind
      simp [rowsToEvents, hp, ih hfind, Except.map]

/-- Counterexample to claim C6 as stated: a source containing a record with an
unparseable timestamp makes ingestion fail, but the failure is the raw
timestamp-parse error carrying the offending value — it is not a
source-naming `malformedSource` error, so the error does not identify the
offending source. -/
theorem claim_C6_counterexample :
    processFiles [c6BadSource] = .error (.badTimestamp "not-a-timestamp") ∧
    IngestErr.badTimestamp "not-a-timestamp" ≠
      IngestErr.malformedSource "StreamingHistory.json" := by
  constructor
  · rfl
  · intro h
    exact IngestErr.noConfusion h

/-- Amended claim C6.  For every source list whose concatenated records contain
a record with an unparseable timestamp, ingestion fails as a whole (the
timestamp conversion aborts at the first such record, with no row-level skip
and no canonical table), but the error carries only the unparseable timestamp
value, not the name of the offending source. -/
theorem claim_C6 (srcs : List Source) (recs : List RawRecord) (r : RawRecord)
    (hcollect : collectFiles srcs = .ok recs)
    (hfind : recs.find? (fun x => (parseTs x.ts).isNone) = some r) :
    processFiles srcs = .error (.badTimestamp r.ts) ∧
    ∀ tbl, processFiles srcs ≠ .ok tbl := by
  have hne : recs.isEmpty = false := by
    cases recs with
    | nil => simp at hfind
    | cons a l => rfl
  have : processFiles srcs = rowsToEvents recs := by
    simp [processFiles, hcollect, hne]
  rw [this, rowsToEvents_find_err recs r hfind]
  simp

/-- Witness for the amended C6 at a concrete source. -/
theorem claim_C6_witness :
    collectFiles [c6BadSource] = .ok c6Recs ∧
    c6Recs.find? (fun x => (parseTs x.ts).isNone) = some c6BadRecord ∧
    processFiles [c6BadSource] = .error (.badTimestamp c6BadRecord.ts) :=
  ⟨by rfl, by rfl, (claim_C6 [c6BadSource] c6Recs c6BadRecord (by rfl) (by rfl)).1⟩

theorem blockPerc_total_zero {tbl : List Event} (h : totalOf tbl = 0) :
    analyzeBlockPercentages tbl = ⟨none, none, none, none⟩ := by
  have h' : pairSum (hourlyStats tbl) = 0 := h
  simp [analyzeBlockPercentages, h']

/-- Counterexample to claim C7 as stated: on a table whose total minutes are
exactly zero, the aggregation does not return `0` for the four block
percentages; each percentage is the non-finite result of the float division
`0 / 0` (modelled `none`), i.e. an undefined value. -/
theorem claim_C7_counterexample :
    analyzeBlockPercentages zeroTable = ⟨none, none, none, none⟩ ∧
    analyzeBlockPercentages zeroTable ≠ ⟨some 0, some 0, some 0, some 0⟩ := by
  have hz : totalOf zeroTable = 0 := by
    have hp : presentHours zeroTable = [3] := by decide
    show pairSum (hourlyStats zeroTable) = 0
    rw [hourlyStats, hp]
    norm_num [pairSum, sumAt, zeroTable, List.filter_cons]
  refine ⟨blockPerc_total_zero hz, ?_⟩
  rw [blockPerc_total_zero hz]
  simp

/-- Amended claim C7.  For every canonical table whose total minutes are
exactly zero, the time-block aggregation does not raise: it still returns the
four block percentages, but each is the undefined non-finite value of the
division `block_minutes / 0` (modelled `none`), not `0`. -/
theorem claim_C7 (tbl : List Event) (h : totalOf tbl = 0) :
    analyzeBlockPercentages tbl = ⟨none, none, none, none⟩ :=
  blockPerc_total_zero h

/-- Witness for the amended C7 at a concrete zero-total table. -/
theorem claim_C7_witness :
    totalOf zeroTable = 0 ∧
    analyzeBlockPercentages zeroTable = ⟨none, none, none, none⟩ := by
  have hz : totalOf zeroTable = 0 := by
    have hp : presentHours zeroTable = [3] := by decide
    show pairSum (hourlyStats zeroTable) = 0
    rw [hourlyStats, hp]
    norm_num [pairSum, sumAt, zeroTable, List.filter_cons]
  exact ⟨hz, claim_C7 zeroTable hz⟩

theorem find?_pair_map (l : List Nat) (f : Nat → ℚ) (h : Nat) :
    ((l.map fun x => (x, f x)).find? fun p => decide (p.1 = h)) =
    (l.find? fun x => decide (x = h)).map fun x => (x, f x) := by
  induction l with
  | nil => rfl
  | cons a l ih =>
    rw [List.map_cons, List.find?_cons, List.find?_cons]
    by_cases ha : a = h
    · simp [ha]
    · simp only [decide_eq_false ha]
      exact ih

theorem find?_self_eq (l : List Nat) (h : Nat) :
    (l.find? fun x => decide (x = h)) = if h ∈ l then some h else none := by
  induction l with
  | nil => simp
  | cons a l ih =>
    rw [List.find?_cons]
    by_cases ha : a = h
    · simp [ha]
    · simp only [decide_eq_false ha, ih, List.mem_cons]
      have : ¬h = a := fun hh => ha hh.symm
      simp [this]

theorem mem_presentHours {tbl : List Event} {h : Nat} :
    h ∈ presentHours tbl ↔ h < 24 ∧ ∃ e ∈ tbl, e.ts.hour.val = h := by
  simp [presentHours, List.mem_filter, List.mem_range, List.any_eq_true]

theorem sumAt_absent {tbl : List Event} {h : Nat}
    (ha : ∀ e ∈ tbl, e.ts.hour.val ≠ h) : sumAt tbl h = 0 := by
  unfold sumAt
  rw [List.filter_eq_nil_iff.mpr (by simpa using ha)]
  rfl

/-- Claim C8.  For every canonical table, the hourly profile of the listening
clock has exactly 24 buckets; bucket `h` holds the pair of the hour `h` and
the sum of minutes played of the events whose timestamp falls in hour `h` —
in particular, an hour with no events is present with value `0` (the
`sumAt` of an hour with no events is the empty sum), never absent. -/
theorem claim_C8 (tbl : List Event) :
    (hourlyProfile24 tbl).length = 24 ∧
    ∀ h : Fin 24, (hourlyProfile24 tbl)[h.val]? = some (h.val, sumAt tbl h.val) := by
  constructor
  · simp [hourlyProfile24]
  · intro h
    have hrange : (List.range 24)[h.val]? = some h.val := List.getElem?_range h.isLt
    rw [hourlyProfile24, List.getElem?_map, hrange, Option.map_some']
    rw [hourlyStats, find?_pair_map, find?_self_eq]
    by_cases hmem : h.val ∈ presentHours tbl
    · simp [hmem]
    · have hno : ∀ e ∈ tbl, e.ts.hour.val ≠ h.val := by
        intro e he hh
        exact hmem (mem_presentHours.mpr ⟨h.isLt, e, he, hh⟩)
      simp [hmem, sumAt_absent hno]

theorem firstDedup_mem (l : List (Option String)) (x : Option String) :
    x ∈ firstDedup l ↔ x ∈ l := by
  induction l using firstDedup.induct with
  | case1 => simp [firstDedup]
  | case2 a xs ih =>
    rw [firstDedup]
    by_cases hx : x = a
    · simp [hx]
    · simp only [List.mem_cons, ih, List.mem_filter, hx, false_or]
      simp [hx]

theorem mem_validIds {ids : List (Option String)} {u : String} :
    u ∈ validIds ids ↔ some u ∈ ids ∧ u ≠ "" := by
  simp only [validIds, List.mem_filterMap]
  constructor
  · rintro ⟨o, ho, he⟩
    match o with
    | none => simp at he
    | some v =>
      by_cases hv : v = "" <;> simp [hv] at he
      exact ⟨he ▸ ho, he ▸ hv⟩
  · rintro ⟨ho, hu⟩
    exact ⟨some u, ho, by simp [hu]⟩

theorem find?_map_synth (l : List String) (u : String) :
    ((l.map synthFeature).find? fun f => decide (f.uri = u)) =
    if u ∈ l then some (synthFeature u) else none := by
  induction l with
  | nil => simp
  | cons v l ih =>
    rw [List.map_cons, List.find?_cons]
    by_cases hv : v = u
    · simp [hv, uri_synthFeature]
    · have hd : decide ((synthFeature v).uri = u) = false := by
        rw [uri_synthFeature]
        exact decide_eq_false hv
      rw [hd, ih]
      have : ¬u = v := fun hh => hv hh.symm
      simp [List.mem_cons, this]

theorem filterMap_of_pointwise {α β : Type} (l : List α) (f : α → Option β)
    (p : α → Bool) (g' : α → β)
    (hf : ∀ e ∈ l, f e = if p e then some (g' e) else none) :
    l.filterMap f = (l.filter p).map g' := by
  induction l with
  | nil => rfl
  | cons a l ih =>
    have ha := hf a (List.mem_cons_self a l)
    have ihl := ih fun e he => hf e (List.mem_cons_of_mem _ he)
    rw [List.filterMap_cons, List.filter_cons]
    by_cases hp : p a
    · rw [hp] at ha ⊢
      simp only [if_pos trivial] at ha ⊢
      rw [ha, List.map_cons, ihl]
    · have hpf : p a = false := by simpa using hp
      rw [hpf] at ha ⊢
      simp only [Bool.false_eq_true, if_false] at ha ⊢
      rw [ha, ihl]

/-- The mean described by the claim: sum over every play-event row carrying
features (valid track id), divided by the number of such rows — a track
played `k` times contributes `k` copies of its vector, and rows without
features are excluded. -/
def rowMean (tbl : List Event) (proj : Feature → ℚ) : ℚ :=
  ((tbl.filter validRow).map fun e => proj (synthFeature (e.uri.getD ""))).sum /
    ((tbl.filter validRow).length : ℚ)

theorem enrich_row (g : MTState) (tbl : List Event) {e : Event} (he : e ∈ tbl) :
    (e.uri.bind fun u =>
      (featureLoop g (firstDedup (tbl.map Event.uri))).1.find? fun f => decide (f.uri = u)) =
    if validRow e then some (synthFeature (e.uri.getD "")) else none := by
  rw [featureLoop_fst]
  match hu : e.uri with
  | none => simp [validRow, hu]
  | some u =>
    show ((validIds (firstDedup (tbl.map Event.uri))).map synthFeature).find?
        (fun f => decide (f.uri = u)) = _
    rw [find?_map_synth]
    by_cases hu' : u = ""
    · subst hu'
      have hno : ¬("" ∈ validIds (firstDedup (tbl.map Event.uri))) := fun hmem =>
        (mem_validIds.mp hmem).2 rfl
      simp [hno, validRow, hu]
    · have hmem : u ∈ validIds (firstDedup (tbl.map Event.uri)) := by
        rw [mem_validIds]
        refine ⟨?_, hu'⟩
        rw [firstDedup_mem]
        exact List.mem_map.mpr ⟨e, he, hu⟩
      simp [hmem, validRow, hu, hu']

theorem featVals_enrich (g : MTState) (tbl : List Event) (proj : Feature → ℚ) :
    featVals (enrichTbl g tbl) proj =
    (tbl.filter validRow).map fun e => proj (synthFeature (e.uri.getD "")) := by
  unfold featVals enrichTbl
  rw [List.filterMap_map]
  refine filterMap_of_pointwise tbl _ validRow _ fun e he => ?_
  show ((e.uri.bind fun u =>
      (featureLoop g (firstDedup (tbl.map Event.uri))).1.find? fun f =>
        decide (f.uri = u)).map proj) = _
  rw [enrich_row g tbl he]
  by_cases hv : validRow e <;> simp [hv]

/-- Claim C10.  The averaged feature dimensions fed to the profile classifier
are means over every play-event row of the enriched table: the six column
means equal the sum of the per-row synthesized vectors (one copy per play
occurrence, so a track played `k` times contributes `k` times) divided by the
number of rows with a valid track id; rows whose uri is absent or empty carry
no features and are excluded from the mean. -/
theorem claim_C10 (g : MTState) (tbl : List Event) :
    avgFeaturesOf (enrichTbl g tbl) =
      ⟨rowMean tbl Feature.danceability, rowMean tbl Feature.energy,
       rowMean tbl Feature.valence, rowMean tbl Feature.speechiness,
       rowMean tbl Feature.acousticness, rowMean tbl Feature.instrumentalness⟩ ∧
    ∀ proj : Feature → ℚ, featMean (enrichTbl g tbl) proj = rowMean tbl proj := by
  have hmean : ∀ proj : Feature → ℚ, featMean (enrichTbl g tbl) proj = rowMean tbl proj := by
    intro proj
    unfold featMean rowMean
    rw [featVals_enrich, List.length_map]
  exact ⟨by simp [avgFeaturesOf, hmean], hmean⟩

theorem genFeature_tempo_bounds (u : String) (s0 : MTState) :
    70 ≤ (genFeature u s0).1.tempo ∧ (genFeature u s0).1.tempo ≤ 180 := by
  unfold genFeature
  dsimp only
  exact rk_uniform_bounds _ _ _ (by norm_num)

theorem rk_uniform_ne (lo hi : ℚ) (hlh : lo < hi) (s₁ s₂ : MTState)
    (h : doubleNum s₁ ≠ doubleNum s₂) :
    (rk_uniform lo hi s₁).1 ≠ (rk_uniform lo hi s₂).1 := by
  have e₁ : (rk_double s₁).1 = (doubleNum s₁ : ℚ) / 9007199254740992 := rfl
  have e₂ : (rk_double s₂).1 = (doubleNum s₂ : ℚ) / 9007199254740992 := rfl
  show lo + (hi - lo) * (rk_double s₁).1 ≠ lo + (hi - lo) * (rk_double s₂).1
  rw [e₁, e₂]
  intro heq
  apply h
  have hne : hi - lo ≠ 0 := sub_ne_zero.mpr hlh.ne'
  have h2 : (hi - lo) * ((doubleNum s₁ : ℚ) / 9007199254740992) =
      (hi - lo) * ((doubleNum s₂ : ℚ) / 9007199254740992) := by linarith
  have h3 : ((doubleNum s₁ : ℚ) / 9007199254740992) =
      ((doubleNum s₂ : ℚ) / 9007199254740992) := mul_left_cancel₀ hne h2
  have h4 : (doubleNum s₁ : ℚ) = (doubleNum s₂ : ℚ) := by
    field_simp at h3
    exact_mod_cast h3
  exact_mod_cast h4

set_option maxRecDepth 100000 in
theorem demo_draw_3_ne_4 :
    doubleNum (nextDoubleState (nextDoubleState (nextDoubleState
      (npSeed (trackSeed demoUri))))) ≠
    doubleNum (nextDoubleState (nextDoubleState (nextDoubleState (nextDoubleState
      (npSeed (trackSeed demoUri)))))) := by decide

set_option maxRecDepth 100000 in
theorem demo_draw_4_ne_5 :
    doubleNum (nextDoubleState (nextDoubleState (nextDoubleState (nextDoubleState
      (npSeed (trackSeed demoUri)))))) ≠
    doubleNum (nextDoubleState (nextDoubleState (nextDoubleState (nextDoubleState
      (nextDoubleState (npSeed (trackSeed demoUri))))))) := by decide

set_option maxRecDepth 100000 in
theorem demo_draw_5_ne_6 :
    doubleNum (nextDoubleState (nextDoubleState (nextDoubleState (nextDoubleState
      (nextDoubleState (npSeed (trackSeed demoUri))))))) ≠
    doubleNum (nextDoubleState (nextDoubleState (nextDoubleState (nextDoubleState
      (nextDoubleState (nextDoubleState (npSeed (trackSeed demoUri)))))))) := by decide

/-- Claim C9.  The synthesizer draws a seventh value, tempo, uniformly from
`[70, 180]`, as the fourth `rk_double`-backed draw in the fixed sequence
(after danceability, energy, valence and before speechiness, acousticness,
instrumentalness); every feature record attached to the enriched table carries
this tempo value; and the claim's six-draw reimplementation without the
interleaved fourth draw produces different speechiness, acousticness and
instrumentalness values (exhibited at the concrete id `demoUri`, where the
six-draw variant consumes draws 3, 4, 5 for those dimensions while the source
consumes draws 4, 5, 6). -/
theorem claim_C9 (u : String) (_hu : u ≠ "") :
    (70 ≤ (synthFeature u).tempo ∧ (synthFeature u).tempo ≤ 180) ∧
    (synthFeature u).tempo = 70 + (180 - 70) * nthDouble (npSeed (trackSeed u)) 3 ∧
    (∀ (g : MTState) (tbl : List Event), ∀ p ∈ enrichTbl g tbl, ∀ f, p.2 = some f →
      f.tempo = (synthFeature (p.1.uri.getD "")).tempo) ∧
    ((sixDrawFeature demoUri).speechiness ≠ (synthFeature demoUri).speechiness ∧
     (sixDrawFeature demoUri).acousticness ≠ (synthFeature demoUri).acousticness ∧
     (sixDrawFeature demoUri).instrumentalness ≠ (synthFeature demoUri).instrumentalness) := by
  refine ⟨genFeature_tempo_bounds u (npSeed (trackSeed u)), rfl, ?_, ?_, ?_, ?_⟩
  · intro g tbl p hp f hf
    obtain ⟨e, he, rfl⟩ := List.mem_map.mp hp
    rw [enrich_row g tbl he] at hf
    by_cases hv : validRow e
    · rw [if_pos hv] at hf
      obtain rfl := Option.some.inj hf
      rfl
    · rw [if_neg hv] at hf
      exact absurd hf (by simp)
  · exact rk_uniform_ne 0.02 0.2 (by norm_num) _ _ demo_draw_3_ne_4
  · exact rk_uniform_ne 0.0 1.0 (by norm_num) _ _ demo_draw_4_ne_5
  · exact rk_uniform_ne 0.0 0.8 (by norm_num) _ _ demo_draw_5_ne_6

/-- Witness for C9 at the concrete id `"a"`. -/
theorem claim_C9_witness :
    ("a" : String) ≠ "" ∧
    (70 ≤ (synthFeature "a").tempo ∧ (synthFeature "a").tempo ≤ 180) :=
  ⟨by decide, (claim_C9 "a" (by decide)).1⟩

theorem presentHours_all (tbl : List Event)
    (hall : ∀ h : Fin 24, ∃ e ∈ tbl, e.ts.hour.val = h.val) :
    presentHours tbl = List.range 24 := by
  unfold presentHours
  apply List.filter_eq_self.mpr
  intro h hh
  rw [List.mem_range] at hh
  obtain ⟨e, he, hhe⟩ := hall ⟨h, hh⟩
  exact List.any_eq_true.mpr ⟨e, he, by simp [hhe]⟩

theorem hourlyStats_all (tbl : List Event)
    (hall : ∀ h : Fin 24, ∃ e ∈ tbl, e.ts.hour.val = h.val) :
    hourlyStats tbl =
      [(0, sumAt tbl 0),
       (1, sumAt tbl 1),
       (2, sumAt tbl 2),
       (3, sumAt tbl 3),
       (4, sumAt tbl 4),
       (5, sumAt tbl 5),
       (6, sumAt tbl 6),
       (7, sumAt tbl 7),
       (8, sumAt tbl 8),
       (9, sumAt tbl 9),
       (10, sumAt tbl 10),
       (11, sumAt tbl 11),
       (12, sumAt tbl 12),
       (13, sumAt tbl 13),
       (14, sumAt tbl 14),
       (15, sumAt tbl 15),
       (16, sumAt tbl 16),
       (17, sumAt tbl 17),
       (18, sumAt tbl 18),
       (19, sumAt tbl 19),
       (20, sumAt tbl 20),
       (21, sumAt tbl 21),
       (22, sumAt tbl 22),
       (23, sumAt tbl 23)] := by
  rw [hourlyStats, presentHours_all tbl hall,
      show List.range 24 = [0, 1, 2, 3, 4, 5, 6, 7, 8, 9, 10, 11, 12, 13, 14, 15, 16, 17, 18, 19, 20, 21, 22, 23] by decide]
  rfl

theorem total_all_hours (tbl : List Event)
    (hall : ∀ h : Fin 24, ∃ e ∈ tbl, e.ts.hour.val = h.val) :
    totalOf tbl = sumAt tbl 0 + sumAt tbl 1 + sumAt tbl 2 + sumAt tbl 3 + sumAt tbl 4 + sumAt tbl 5 + sumAt tbl 6 + sumAt tbl 7 + sumAt tbl 8 + sumAt tbl 9 + sumAt tbl 10 + sumAt tbl 11 + sumAt tbl 12 + sumAt tbl 13 + sumAt tbl 14 + sumAt tbl 15 + sumAt tbl 16 + sumAt tbl 17 + sumAt tbl 18 + sumAt tbl 19 + sumAt tbl 20 + sumAt tbl 21 + sumAt tbl 22 + sumAt tbl 23 := by
  have eT : pairSum (hourlyStats tbl) =
      sumAt tbl 0 + (sumAt tbl 1 + (sumAt tbl 2 + (sumAt tbl 3 + (sumAt tbl 4 + (sumAt tbl 5 + (sumAt tbl 6 + (sumAt tbl 7 + (sumAt tbl 8 + (sumAt tbl 9 + (sumAt tbl 10 + (sumAt tbl 11 + (sumAt tbl 12 + (sumAt tbl 13 + (sumAt tbl 14 + (sumAt tbl 15 + (sumAt tbl 16 + (sumAt tbl 17 + (sumAt tbl 18 + (sumAt tbl 19 + (sumAt tbl 20 + (sumAt tbl 21 + (sumAt tbl 22 + (sumAt tbl 23 + 0))))))))))))))))))))))) := by
    rw [hourlyStats_all tbl hall]
    rfl
  rw [totalOf, eT]
  ring

theorem blocks_all_hours (tbl : List Event)
    (hall : ∀ h : Fin 24, ∃ e ∈ tbl, e.ts.hour.val = h.val)
    (ht : totalOf tbl ≠ 0) :
    analyzeBlockPercentages tbl =
      ⟨some ((sumAt tbl 5 + sumAt tbl 6 + sumAt tbl 7) / totalOf tbl * 100),
       some ((sumAt tbl 9 + sumAt tbl 10 + sumAt tbl 11 + sumAt tbl 12 + sumAt tbl 13 + sumAt tbl 14 + sumAt tbl 15 + sumAt tbl 16) / totalOf tbl * 100),
       some ((sumAt tbl 17 + sumAt tbl 18 + sumAt tbl 19 + sumAt tbl 20 + sumAt tbl 21) / totalOf tbl * 100),
       some ((sumAt tbl 22 + sumAt tbl 23 + sumAt tbl 0 + sumAt tbl 1 + sumAt tbl 2 + sumAt tbl 3 + sumAt tbl 4) / totalOf tbl * 100)⟩ := by
  have hs := hourlyStats_all tbl hall
  have ht' : ¬(pairSum (hourlyStats tbl) = 0) := ht
  have e1 : blockMinutes (hourlyStats tbl) 5 8 =
      sumAt tbl 5 + (sumAt tbl 6 + (sumAt tbl 7 + 0)) := by rw [hs]; rfl
  have e2 : blockMinutes (hourlyStats tbl) 9 17 =
      sumAt tbl 9 + (sumAt tbl 10 + (sumAt tbl 11 + (sumAt tbl 12 + (sumAt tbl 13 + (sumAt tbl 14 + (sumAt tbl 15 + (sumAt tbl 16 + 0))))))) := by rw [hs]; rfl
  have e3 : blockMinutes (hourlyStats tbl) 17 22 =
      sumAt tbl 17 + (sumAt tbl 18 + (sumAt tbl 19 + (sumAt tbl 20 + (sumAt tbl 21 + 0)))) := by rw [hs]; rfl
  have e4 : blockMinutes (hourlyStats tbl) 22 5 =
      (sumAt tbl 22 + (sumAt tbl 23 + 0)) + (sumAt tbl 0 + (sumAt tbl 1 + (sumAt tbl 2 + (sumAt tbl 3 + (sumAt tbl 4 + 0))))) := by rw [hs]; rfl
  simp only [analyzeBlockPercentages]
  simp only [if_neg ht']
  rw [e1, e2, e3, e4]
  unfold totalOf
  simp only [BlockPerc.mk.injEq, Option.some.injEq]
  refine ⟨?_, ?_, ?_, ?_⟩ <;> ring

/-- Counterexample to claim C3 as stated: the canonical table with a single
one-minute event at hour 8 has strictly positive total minutes, yet its
late-night percentage is not the wrap-around sum of hours 22, 23 and 0–4
(which is `0` here): because the block slices select *positions* of the
present-hours Series rather than hour labels, `hourly_stats[:5]` picks up the
hour-8 entry and the late-night block reports 100%. -/
theorem claim_C3_counterexample :
    0 < totalOf hour8Table ∧
    (analyzeBlockPercentages hour8Table).lateNight = some 100 ∧
    (sumAt hour8Table 22 + sumAt hour8Table 23 + sumAt hour8Table 0 + sumAt hour8Table 1 +
       sumAt hour8Table 2 + sumAt hour8Table 3 + sumAt hour8Table 4) = 0 ∧
    (analyzeBlockPercentages hour8Table).lateNight ≠
      some ((sumAt hour8Table 22 + sumAt hour8Table 23 + sumAt hour8Table 0 + sumAt hour8Table 1 +
       sumAt hour8Table 2 + sumAt hour8Table 3 + sumAt hour8Table 4) / totalOf hour8Table * 100) := by
  have htot : totalOf hour8Table = 1 + 0 + 0 := rfl
  have hpos : 0 < totalOf hour8Table := by rw [htot]; norm_num
  have hs8 : hourlyStats hour8Table = [(8, (1 : ℚ) + 0)] := rfl
  have hw : (sumAt hour8Table 22 + sumAt hour8Table 23 + sumAt hour8Table 0 + sumAt hour8Table 1 +
       sumAt hour8Table 2 + sumAt hour8Table 3 + sumAt hour8Table 4) = 0 := by
    rw [show (sumAt hour8Table 22 : ℚ) = 0 from rfl, show (sumAt hour8Table 23 : ℚ) = 0 from rfl,
        show (sumAt hour8Table 0 : ℚ) = 0 from rfl, show (sumAt hour8Table 1 : ℚ) = 0 from rfl,
        show (sumAt hour8Table 2 : ℚ) = 0 from rfl, show (sumAt hour8Table 3 : ℚ) = 0 from rfl,
        show (sumAt hour8Table 4 : ℚ) = 0 from rfl]
    norm_num
  have hln : (analyzeBlockPercentages hour8Table).lateNight = some 100 := by
    have hne : ¬(pairSum (hourlyStats hour8Table) = 0) := by
      rw [hs8]
      show ¬((1 : ℚ) + 0 + 0 = 0)
      norm_num
    have hbm : blockMinutes (hourlyStats hour8Table) 22 5 = 0 + ((1 : ℚ) + 0 + 0) := by
      rw [hs8]; rfl
    have hp : pairSum (hourlyStats hour8Table) = (1 : ℚ) + 0 + 0 := by rw [hs8]; rfl
    simp only [analyzeBlockPercentages]
    simp only [if_neg hne]
    rw [hbm, hp]
    norm_num
  refine ⟨hpos, hln, hw, ?_⟩
  rw [hln, hw]
  intro hcontra
  obtain hval := Option.some.inj hcontra
  rw [zero_div, zero_mul] at hval
  norm_num at hval

/-- Amended claim C3.  For every canonical table in which every hour of the
day occurs (so that the positional Series slices coincide with hour labels),
with strictly positive total minutes and no minutes in hour 8 (hour 8 lies in
none of the four blocks, since `early_morning` is `[5,8)` and `work_hours`
starts at 9), the four TimeBlockProfile percentages sum to exactly 100, and
the late-night block `[22,5)` is the wrap-around sum of the minutes of hours
22 and 23 plus hours 0 through 4, as a share of the total. -/
theorem claim_C3 (tbl : List Event)
    (hall : ∀ h : Fin 24, ∃ e ∈ tbl, e.ts.hour.val = h.val)
    (hpos : 0 < totalOf tbl) (h8 : sumAt tbl 8 = 0) :
    sumBlocks (analyzeBlockPercentages tbl) = 100 ∧
    (analyzeBlockPercentages tbl).lateNight =
      some ((sumAt tbl 22 + sumAt tbl 23 + sumAt tbl 0 + sumAt tbl 1 + sumAt tbl 2 +
             sumAt tbl 3 + sumAt tbl 4) / totalOf tbl * 100) := by
  have hb := blocks_all_hours tbl hall hpos.ne.symm
  have htot := total_all_hours tbl hall
  refine ⟨?_, by rw [hb]⟩
  rw [hb]
  unfold sumBlocks
  simp only [Option.getD_some]
  have hT : totalOf tbl ≠ 0 := hpos.ne.symm
  field_simp
  linarith [htot, h8]

/-- Witness for the amended C3 at a concrete table covering every hour with
zero minutes in hour 8. -/
theorem claim_C3_witness :
    (∀ h : Fin 24, ∃ e ∈ hour8FreeTable, e.ts.hour.val = h.val) ∧
    0 < totalOf hour8FreeTable ∧ sumAt hour8FreeTable 8 = 0 ∧
    sumBlocks (analyzeBlockPercentages hour8FreeTable) = 100 := by
  have hall : ∀ h : Fin 24, ∃ e ∈ hour8FreeTable, e.ts.hour.val = h.val := by decide
  have hpos : 0 < totalOf hour8FreeTable := by
    rw [total_all_hours hour8FreeTable hall]
    rw [show (sumAt hour8FreeTable 0 : ℚ) = 1 + 0 from rfl,
        show (sumAt hour8FreeTable 1 : ℚ) = 1 + 0 from rfl,
        show (sumAt hour8FreeTable 2 : ℚ) = 1 + 0 from rfl,
        show (sumAt hour8FreeTable 3 : ℚ) = 1 + 0 from rfl,
        show (sumAt hour8FreeTable 4 : ℚ) = 1 + 0 from rfl,
        show (sumAt hour8FreeTable 5 : ℚ) = 1 + 0 from rfl,
        show (sumAt hour8FreeTable 6 : ℚ) = 1 + 0 from rfl,
        show (sumAt hour8FreeTable 7 : ℚ) = 1 + 0 from rfl,
        show (sumAt hour8FreeTable 8 : ℚ) = 0 + 0 from rfl,
        show (sumAt hour8FreeTable 9 : ℚ) = 1 + 0 from rfl,
        show (sumAt hour8FreeTable 10 : ℚ) = 1 + 0 from rfl,
        show (sumAt hour8FreeTable 11 : ℚ) = 1 + 0 from rfl,
        show (sumAt hour8FreeTable 12 : ℚ) = 1 + 0 from rfl,
        show (sumAt hour8FreeTable 13 : ℚ) = 1 + 0 from rfl,
        show (sumAt hour8FreeTable 14 : ℚ) = 1 + 0 from rfl,
        show (sumAt hour8FreeTable 15 : ℚ) = 1 + 0 from rfl,
        show (sumAt hour8FreeTable 16 : ℚ) = 1 + 0 from rfl,
        show (sumAt hour8FreeTable 17 : ℚ) = 1 + 0 from rfl,
        show (sumAt hour8FreeTable 18 : ℚ) = 1 + 0 from rfl,
        show (sumAt hour8FreeTable 19 : ℚ) = 1 + 0 from rfl,
        show (sumAt hour8FreeTable 20 : ℚ) = 1 + 0 from rfl,
        show (sumAt hour8FreeTable 21 : ℚ) = 1 + 0 from rfl,
        show (sumAt hour8FreeTable 22 : ℚ) = 1 + 0 from rfl,
        show (sumAt hour8FreeTable 23 : ℚ) = 1 + 0 from rfl]
    norm_num
  have h8 : sumAt hour8FreeTable 8 = 0 := by
    rw [show (sumAt hour8FreeTable 8 : ℚ) = 0 + 0 from rfl]
    norm_num
  exact ⟨hall, hpos, h8, (claim_C3 hour8FreeTable hall hpos h8).1⟩

end SpotifyWrapped
